import Mathlib

/-
Verification development for the explainable-data-analysis pipeline in
src/app.py.  The definitions below are a shallow embedding of the model
selection loop, metric computation, scaler pipeline, train/test split, the
train-and-evaluate trigger and the LIME explanation step.  Scores and metric
values computed by the program are modelled as exact rationals (or reals where
a square root occurs); labels are modelled as integers.
-/

/-- The task type chosen by the user in the sidebar radio button. -/
inductive ModelType
  | classification
  | regression
deriving DecidableEq

/-- Number of distinct values of a label vector: len(np.unique(y)). -/
def distinctCount (l : List ℤ) : ℕ := l.dedup.length

/-- The averaging-mode selection of src/app.py lines 181-184: weighted when
the task is classification and the train target has more than 2 distinct
values, binary otherwise. -/
def average_method (mt : ModelType) (y_train : List ℤ) : String :=
  if mt = ModelType.classification ∧ 2 < distinctCount y_train then "weighted"
  else "binary"

/-- One step of the best-model scan of src/app.py lines 209-212: the running
best is replaced exactly when the new test score is strictly greater; the
initial best_accuracy of negative infinity is modelled by the state none,
which every real score beats. -/
def selectStep (best : Option (String × ℚ)) (cand : String × ℚ) :
    Option (String × ℚ) :=
  match best with
  | none => some cand
  | some b => if cand.2 > b.2 then some cand else some b

/-- The left-to-right scan over the roster in insertion order (the for loop
over models.items() combined with the strict-greater update). -/
def selectBest (roster : List (String × ℚ)) : Option (String × ℚ) :=
  roster.foldl selectStep none

/-- Structural version of the scan once a first candidate has been seen. -/
def selectFrom (b : String × ℚ) : List (String × ℚ) → String × ℚ
  | [] => b
  | c :: cs => selectFrom (if c.2 > b.2 then c else b) cs

theorem foldl_selectStep_some (l : List (String × ℚ)) :
    ∀ b : String × ℚ, l.foldl selectStep (some b) = some (selectFrom b l) := by
  induction l with
  | nil => intro b; simp [selectFrom]
  | cons c cs ih =>
    intro b
    have hstep : selectStep (some b) c = some (if c.2 > b.2 then c else b) := by
      simp only [selectStep]
      split <;> rfl
    simp only [List.foldl_cons, hstep, selectFrom]
    exact ih _

theorem selectFrom_spec (l : List (String × ℚ)) :
    ∀ b : String × ℚ,
      (selectFrom b l = b ∧ ∀ q ∈ l, q.2 ≤ b.2) ∨
      (∃ r pre post, selectFrom b l = r ∧ l = pre ++ r :: post ∧
        b.2 < r.2 ∧ (∀ q ∈ pre, q.2 < r.2) ∧ (∀ q ∈ post, q.2 ≤ r.2)) := by
  induction l with
  | nil => intro b; left; exact ⟨rfl, by simp⟩
  | cons c cs ih =>
    intro b
    by_cases h : c.2 > b.2
    · -- the head strictly improves on the running best
      have hsel : selectFrom b (c :: cs) = selectFrom c cs := by
        simp [selectFrom, if_pos h]
      rcases ih c with ⟨heq, hle⟩ | ⟨r, pre, post, hr, heq, hlt, hpre, hpost⟩
      · right
        refine ⟨c, [], cs, by rw [hsel, heq], by simp, h, ?_, hle⟩
        intro q hq; simp at hq
      · right
        refine ⟨r, c :: pre, post, by rw [hsel, hr], by simp [heq],
          lt_trans h hlt, ?_, hpost⟩
        intro q hq
        rcases List.mem_cons.mp hq with rfl | hq2
        · exact hlt
        · exact hpre q hq2
    · -- the head does not improve; the running best stays
      have hsel : selectFrom b (c :: cs) = selectFrom b cs := by
        simp [selectFrom, if_neg h]
      push_neg at h
      rcases ih b with ⟨heq, hle⟩ | ⟨r, pre, post, hr, heq, hlt, hpre, hpost⟩
      · left
        refine ⟨by rw [hsel]; exact heq, ?_⟩
        intro q hq
        rcases List.mem_cons.mp hq with rfl | hq2
        · exact h
        · exact hle q hq2
      · right
        refine ⟨r, c :: pre, post, by rw [hsel, hr], by simp [heq], hlt, ?_, hpost⟩
        intro q hq
        rcases List.mem_cons.mp hq with rfl | hq2
        · exact lt_of_le_of_lt h hlt
        · exact hpre q hq2

theorem selectBest_cons (c : String × ℚ) (cs : List (String × ℚ)) :
    selectBest (c :: cs) = some (selectFrom c cs) := by
  simp only [selectBest, List.foldl_cons]
  exact foldl_selectStep_some cs c

/-- Claim C1: over a non-empty roster scanned left to right in insertion
order, the selected Best Model is a roster member whose primary metric is
maximal, and every roster member strictly before it has a strictly smaller
primary metric, so the first-seen member wins an exact tie. -/
theorem best_model_selection_spec (roster : List (String × ℚ))
    (sel : String × ℚ) (h : selectBest roster = some sel) :
    ∃ pre post, roster = pre ++ sel :: post ∧
      (∀ q ∈ roster, q.2 ≤ sel.2) ∧
      (∀ q ∈ pre, q.2 < sel.2) := by
  cases roster with
  | nil => simp [selectBest] at h
  | cons c cs =>
    rw [selectBest_cons] at h
    have hsel : sel = selectFrom c cs := by
      exact (Option.some.injEq _ _).mp h.symm
    rcases selectFrom_spec cs c with ⟨heq, hle⟩ | ⟨r, pre, post, hr, heq, hlt, hpre, hpost⟩
    · have hc : sel = c := by rw [hsel, heq]
      subst hc
      refine ⟨[], cs, by simp, ?_, ?_⟩
      · intro q hq
        rcases List.mem_cons.mp hq with rfl | hq2
        · exact le_refl _
        · exact hle q hq2
      · intro q hq; simp at hq
    · have hc : sel = r := by rw [hsel, hr]
      subst hc
      refine ⟨c :: pre, post, by simp [heq], ?_, ?_⟩
      · intro q hq
        rcases List.mem_cons.mp hq with rfl | hq2
        · exact le_of_lt hlt
        · rw [heq] at hq2
          rcases List.mem_append.mp hq2 with hq3 | hq3
          · exact le_of_lt (hpre q hq3)
          · rcases List.mem_cons.mp hq3 with rfl | hq4
            · exact le_refl _
            · exact hpost q hq4
      · intro q hq
        rcases List.mem_cons.mp hq with rfl | hq2
        · exact hlt
        · exact hpre q hq2

/-- The synthetic roster of the spec test: known scores 0.70, 0.95, 0.81. -/
def rosterExample : List (String × ℚ) :=
  [("RandomForest", mkRat 7 10), ("DecisionTree", mkRat 19 20),
   ("SVC", mkRat 81 100)]

/-- Witness for claim C1: on the roster with scores 0.70, 0.95, 0.81 the scan
selects the 0.95 entry, the second roster member. -/
theorem best_model_selection_spec_witness :
    ∃ pre post,
      rosterExample = pre ++ ("DecisionTree", mkRat 19 20) :: post ∧
      (∀ q ∈ rosterExample, q.2 ≤ (("DecisionTree", mkRat 19 20) : String × ℚ).2) ∧
      (∀ q ∈ pre, q.2 < (("DecisionTree", mkRat 19 20) : String × ℚ).2) :=
  best_model_selection_spec rosterExample ("DecisionTree", mkRat 19 20) (by decide)

theorem selectFrom_mem (l : List (String × ℚ)) :
    ∀ b : String × ℚ, selectFrom b l = b ∨ selectFrom b l ∈ l := by
  induction l with
  | nil => intro b; left; rfl
  | cons c cs ih =>
    intro b
    by_cases h : c.2 > b.2
    · have hsel : selectFrom b (c :: cs) = selectFrom c cs := by
        simp [selectFrom, if_pos h]
      rcases ih c with heq | hmem
      · right; rw [hsel, heq]; exact List.mem_cons_self c cs
      · right; rw [hsel]; exact List.mem_cons_of_mem c hmem
    · have hsel : selectFrom b (c :: cs) = selectFrom b cs := by
        simp [selectFrom, if_neg h]
      rcases ih b with heq | hmem
      · left; rw [hsel, heq]
      · right; rw [hsel]; exact List.mem_cons_of_mem c hmem

/-- Claim C10: on a non-empty roster whose primary metrics are real numbers,
the scan always ends with a Best Model chosen; the selection is some and is a
member of the roster, so the subsequent results lookup by best name cannot
fail. -/
theorem best_model_always_chosen (roster : List (String × ℚ))
    (h : roster ≠ []) :
    ∃ sel, selectBest roster = some sel ∧ sel ∈ roster := by
  cases roster with
  | nil => exact absurd rfl h
  | cons c cs =>
    refine ⟨selectFrom c cs, selectBest_cons c cs, ?_⟩
    rcases selectFrom_mem cs c with heq | hmem
    · rw [heq]; exact List.mem_cons_self c cs
    · exact List.mem_cons_of_mem c hmem

/-- A second concrete roster, with an exact tie on the maximal score. -/
def rosterExampleB : List (String × ℚ) :=
  [("GaussianNB", mkRat 1 2), ("SVC", mkRat 1 2)]

/-- Witness for claim C10: on a concrete non-empty roster the selection is
some and a member. -/
theorem best_model_always_chosen_witness :
    ∃ sel, selectBest rosterExampleB = some sel ∧ sel ∈ rosterExampleB :=
  best_model_always_chosen rosterExampleB (by decide)

/-! ### Classification metrics (src/app.py lines 180-196) -/

/-- Division with the zero-denominator convention of the metric helpers. -/
def safeDiv (a b : ℚ) : ℚ := if b = 0 then 0 else a / b

/-- Number of positions where prediction and truth agree. -/
def countEq (y yp : List ℤ) : ℕ := (y.zip yp).countP (fun q => q.1 == q.2)

/-- accuracy_score: fraction of exactly matching predictions. -/
def accuracy_score (y yp : List ℤ) : ℚ := (countEq y yp : ℚ) / (y.length : ℚ)

def truePos (c : ℤ) (y yp : List ℤ) : ℕ :=
  (y.zip yp).countP (fun q => q.1 == c && q.2 == c)

def falsePos (c : ℤ) (y yp : List ℤ) : ℕ :=
  (y.zip yp).countP (fun q => !(q.1 == c) && q.2 == c)

def falseNeg (c : ℤ) (y yp : List ℤ) : ℕ :=
  (y.zip yp).countP (fun q => q.1 == c && !(q.2 == c))

def classPrecision (c : ℤ) (y yp : List ℤ) : ℚ :=
  safeDiv (truePos c y yp : ℚ) ((truePos c y yp : ℚ) + (falsePos c y yp : ℚ))

def classRecall (c : ℤ) (y yp : List ℤ) : ℚ :=
  safeDiv (truePos c y yp : ℚ) ((truePos c y yp : ℚ) + (falseNeg c y yp : ℚ))

def classF1 (c : ℤ) (y yp : List ℤ) : ℚ :=
  safeDiv (2 * classPrecision c y yp * classRecall c y yp)
    (classPrecision c y yp + classRecall c y yp)

/-- Number of true samples of class c. -/
def support (c : ℤ) (y : List ℤ) : ℕ := y.countP (fun a => a == c)

/-- Support-weighted average of a per-class metric over the observed classes. -/
def weightedAvg (f : ℤ → List ℤ → List ℤ → ℚ) (y yp : List ℤ) : ℚ :=
  safeDiv ((y.dedup.map (fun c => (support c y : ℚ) * f c y yp)).sum)
    (y.length : ℚ)

/-- precision_score with the averaging mode passed by the program: binary
scores the positive class 1, any other mode is the weighted average. -/
def precision_score (average : String) (y yp : List ℤ) : ℚ :=
  if average = "binary" then classPrecision 1 y yp
  else weightedAvg classPrecision y yp

def recall_score (average : String) (y yp : List ℤ) : ℚ :=
  if average = "binary" then classRecall 1 y yp
  else weightedAvg classRecall y yp

def f1_score (average : String) (y yp : List ℤ) : ℚ :=
  if average = "binary" then classF1 1 y yp
  else weightedAvg classF1 y yp

/-- brier_score_loss on the positive-class probability column. -/
def brier_score_loss (y : List ℤ) (prob : List ℚ) : ℚ :=
  (List.zipWith (fun a p => (p - (a : ℚ)) ^ 2) y prob).sum / (y.length : ℚ)

/-- roc_auc_score on the positive-class probability column, as the normalized
Mann-Whitney statistic with half weight for probability ties. -/
def roc_auc_score (y : List ℤ) (prob : List ℚ) : ℚ :=
  let pos := (y.zip prob).filter (fun q => q.1 == 1)
  let neg := (y.zip prob).filter (fun q => !(q.1 == 1))
  safeDiv ((pos.map (fun a =>
      (neg.countP (fun b => decide (b.2 < a.2)) : ℚ) +
        (neg.countP (fun b => b.2 == a.2) : ℚ) / 2)).sum)
    ((pos.length : ℚ) * (neg.length : ℚ))

def kTrainAccuracy : String := "Train Accuracy"
def kTestAccuracy : String := "Test Accuracy"
def kPrecision : String := "Precision"
def kRecall : String := "Recall"
def kF1 : String := "F1-score"
def kBrier : String := "Brier Score"
def kAUC : String := "AUC"

/-- The per-model classification entry of results[name] built at src/app.py
lines 186-196.  Brier score and AUC are stored as an optional value: some
when the model supports probability output and the test target has exactly 2
distinct values, none otherwise. -/
structure ClassifierEval where
  averaging : String
  trainAccuracy : ℚ
  testAccuracy : ℚ
  precisionVal : ℚ
  recallVal : ℚ
  f1Val : ℚ
  brierScore : Option ℚ
  auc : Option ℚ
deriving DecidableEq

def classificationResults (hasProba : Bool)
    (y_train y_test y_pred_train y_pred_test : List ℤ) (probaTest : List ℚ) :
    ClassifierEval :=
  let avg := average_method ModelType.classification y_train
  { averaging := avg
    trainAccuracy := accuracy_score y_train y_pred_train
    testAccuracy := accuracy_score y_test y_pred_test
    precisionVal := precision_score avg y_test y_pred_test
    recallVal := recall_score avg y_test y_pred_test
    f1Val := f1_score avg y_test y_pred_test
    brierScore :=
      if hasProba && distinctCount y_test == 2 then
        some (brier_score_loss y_test probaTest)
      else none
    auc :=
      if hasProba && distinctCount y_test == 2 then
        some (roc_auc_score y_test probaTest)
      else none }

/-- The metric rows of one classification entry, in insertion order. -/
def ClassifierEval.toRows (r : ClassifierEval) : List (String × Option ℚ) :=
  [(kTrainAccuracy, some r.trainAccuracy), (kTestAccuracy, some r.testAccuracy),
   (kPrecision, some r.precisionVal), (kRecall, some r.recallVal),
   (kF1, some r.f1Val), (kBrier, r.brierScore), (kAUC, r.auc)]

/-- The display loop of src/app.py lines 219-221: a metric is written only
when its value is not None. -/
def displayMetrics (rows : List (String × Option ℚ)) : List (String × ℚ) :=
  rows.filterMap (fun p => p.2.map (fun v => (p.1, v)))

/-- Claim C2: in a classification entry the AUC and Brier score are some if
and only if the model supports probability output and the test target has
exactly 2 distinct values; when the condition fails they are the distinct
not-applicable value none, and the display loop omits exactly those rows
instead of reporting zero or raising. -/
theorem auc_brier_presence (hasProba : Bool)
    (y_train y_test y_pred_train y_pred_test : List ℤ) (probaTest : List ℚ) :
    ((classificationResults hasProba y_train y_test y_pred_train y_pred_test
        probaTest).auc.isSome = (hasProba && distinctCount y_test == 2)) ∧
    ((classificationResults hasProba y_train y_test y_pred_train y_pred_test
        probaTest).brierScore.isSome = (hasProba && distinctCount y_test == 2)) ∧
    ((kAUC ∈ (displayMetrics (classificationResults hasProba y_train y_test
        y_pred_train y_pred_test probaTest).toRows).map Prod.fst) ↔
      (hasProba = true ∧ distinctCount y_test = 2)) ∧
    ((kBrier ∈ (displayMetrics (classificationResults hasProba y_train y_test
        y_pred_train y_pred_test probaTest).toRows).map Prod.fst) ↔
      (hasProba = true ∧ distinctCount y_test = 2)) := by
  by_cases hp : hasProba = true
  · by_cases h2 : distinctCount y_test = 2
    · simp [classificationResults, ClassifierEval.toRows, displayMetrics,
        hp, h2, kTrainAccuracy, kTestAccuracy, kPrecision, kRecall, kF1,
        kBrier, kAUC]
    · simp [classificationResults, ClassifierEval.toRows, displayMetrics,
        hp, h2, kTrainAccuracy, kTestAccuracy, kPrecision, kRecall, kF1,
        kBrier, kAUC, Nat.beq_eq_true_eq]
  · simp only [Bool.not_eq_true] at hp
    simp [classificationResults, ClassifierEval.toRows, displayMetrics,
      hp, kTrainAccuracy, kTestAccuracy, kPrecision, kRecall, kF1,
      kBrier, kAUC]

/-- Claim C3, counterexample: a train target with a single distinct class is
not the exactly-2 case, yet the program picks binary averaging, not weighted
as the claim requires for every non-2 case. -/
theorem averaging_single_class_counterexample :
    distinctCount [(5 : ℤ), 5, 5] = 1 ∧
    average_method ModelType.classification [(5 : ℤ), 5, 5] = "binary" ∧
    ¬ average_method ModelType.classification [(5 : ℤ), 5, 5] = "weighted" := by
  decide

/-- Claim C3 as amended: for classification runs the precision, recall and F1
metrics are computed with averaging mode binary exactly when the train target
has at most 2 distinct classes (including the degenerate fewer-than-2 case),
and with mode weighted exactly when it has more than 2; the computed entry
uses that mode for all three metrics. -/
theorem averaging_mode_spec (hasProba : Bool)
    (y_train y_test y_pred_train y_pred_test : List ℤ) (probaTest : List ℚ) :
    (average_method ModelType.classification y_train = "binary" ↔
      distinctCount y_train ≤ 2) ∧
    (average_method ModelType.classification y_train = "weighted" ↔
      2 < distinctCount y_train) ∧
    ((classificationResults hasProba y_train y_test y_pred_train y_pred_test
        probaTest).precisionVal =
      precision_score (average_method ModelType.classification y_train)
        y_test y_pred_test) ∧
    ((classificationResults hasProba y_train y_test y_pred_train y_pred_test
        probaTest).recallVal =
      recall_score (average_method ModelType.classification y_train)
        y_test y_pred_test) ∧
    ((classificationResults hasProba y_train y_test y_pred_train y_pred_test
        probaTest).f1Val =
      f1_score (average_method ModelType.classification y_train)
        y_test y_pred_test) := by
  refine ⟨?_, ?_, rfl, rfl, rfl⟩
  · unfold average_method
    by_cases h : 2 < distinctCount y_train
    · rw [if_pos ⟨rfl, h⟩]
      constructor
      · intro hs; exact absurd hs (by decide)
      · intro hle; omega
    · rw [if_neg (fun hc => h hc.2)]
      constructor
      · intro _; omega
      · intro _; rfl
  · unfold average_method
    by_cases h : 2 < distinctCount y_train
    · rw [if_pos ⟨rfl, h⟩]
      constructor
      · intro _; exact h
      · intro _; rfl
    · rw [if_neg (fun hc => h hc.2)]
      constructor
      · intro hs; exact absurd hs (by decide)
      · intro hlt; exact absurd hlt h

/-! ### Candidate model roster and the LIME explanation step
(src/app.py lines 146-163 and 241-258) -/

/-- A candidate estimator, abstracted to its name and the two prediction
capabilities the pipeline queries with hasattr: every estimator has predict,
and only the classifiers of the roster expose predict_proba. -/
structure MLModel where
  name : String
  hasPredictProba : Bool
  hasPredict : Bool
deriving DecidableEq

/-- The classification roster of src/app.py lines 147-155; each of the six
estimators exposes predict_proba (SVC is constructed with probability true). -/
def classificationModels : List MLModel :=
  [⟨"RandomForest", true, true⟩, ⟨"DecisionTree", true, true⟩,
   ⟨"SVC", true, true⟩, ⟨"GaussianNB", true, true⟩,
   ⟨"LogisticRegression", true, true⟩, ⟨"XGBoost", true, true⟩]

/-- The regression roster of src/app.py lines 156-163; none of the five
regressors exposes predict_proba, all expose predict. -/
def regressionModels : List MLModel :=
  [⟨"RandomForest", false, true⟩, ⟨"DecisionTree", false, true⟩,
   ⟨"SVR", false, true⟩, ⟨"LinearRegression", false, true⟩,
   ⟨"XGBoost", false, true⟩]

/-- Which prediction function explain_instance receives at src/app.py line
246: predict_proba for classification, predict for regression. -/
inductive PredKind
  | proba
  | predict
deriving DecidableEq

/-- The arguments the program passes to LimeTabularExplainer at line 245. -/
structure LimeConfig where
  trainingData : List (List ℚ)
  featureNames : List String
  classNames : List String
  discretizeContinuous : Bool
deriving DecidableEq

/-- Outcome of the LIME stage: either the explainer ran with a configuration
and a branch-selected prediction function, or the stage was skipped with the
user-visible warning of line 258. -/
inductive LimeOutcome
  | ran (cfg : LimeConfig) (k : PredKind)
  | skippedWithWarning
deriving DecidableEq

/-- The gate of src/app.py line 243: best_model is not None and
hasattr(best_model, predict_proba).  The same predicate is applied for both
task types. -/
def limeGate (best : Option MLModel) : Bool :=
  match best with
  | none => false
  | some m => m.hasPredictProba

/-- The LIME stage of src/app.py lines 241-258. -/
def limeStep (X_train : List (List ℚ)) (featureNames : List String)
    (best : Option MLModel) (mt : ModelType) : LimeOutcome :=
  if limeGate best then
    LimeOutcome.ran
      { trainingData := X_train, featureNames := featureNames,
        classNames := ["Control", "Patient"], discretizeContinuous := true }
      (if mt = ModelType.classification then PredKind.proba else PredKind.predict)
  else LimeOutcome.skippedWithWarning

/-- Claim C4: the code gates the LIME stage on predict_proba for both task
types, so for every regression roster member, which has a predict output but
no predict_proba, the stage is skipped with the warning instead of running
with the direct prediction function as the specification requires. -/
theorem lime_gate_skips_all_regression_models :
    (regressionModels.all
      (fun m => m.hasPredict && !(limeGate (some m))) = true) ∧
    (∀ (X : List (List ℚ)) (featureNames : List String),
      regressionModels.map
          (fun m => limeStep X featureNames (some m) ModelType.regression) =
        List.replicate 5 LimeOutcome.skippedWithWarning) :=
  ⟨by decide, fun X featureNames => rfl⟩

/-- Claim C9: whenever the LIME stage runs, the class names handed to the
explainer are the fixed pair Control and Patient, for every training matrix,
feature-name list, best model and task type. -/
theorem lime_class_names_fixed (X_train : List (List ℚ))
    (featureNames : List String) (best : Option MLModel) (mt : ModelType)
    (cfg : LimeConfig) (k : PredKind)
    (h : limeStep X_train featureNames best mt = LimeOutcome.ran cfg k) :
    cfg.classNames = ["Control", "Patient"] := by
  unfold limeStep at h
  by_cases hg : limeGate best = true
  · rw [if_pos hg] at h
    cases h
    rfl
  · rw [if_neg hg] at h
    cases h

/-- Witness for claim C9: a classification run whose best model is the
random forest classifier runs LIME, and the theorem yields the fixed class
names on its configuration. -/
theorem lime_class_names_fixed_witness :
    ({ trainingData := [], featureNames := [], classNames := ["Control", "Patient"],
       discretizeContinuous := true } : LimeConfig).classNames =
      ["Control", "Patient"] :=
  lime_class_names_fixed [] [] (some ⟨"RandomForest", true, true⟩)
    ModelType.classification _ PredKind.proba (by rfl)

/-! ### Regression metrics (src/app.py lines 197-206) -/

/-- Per-position squared errors of a prediction vector. -/
noncomputable def squaredErrors : List ℝ → List ℝ → List ℝ
  | a :: as, b :: bs => (a - b) ^ 2 :: squaredErrors as bs
  | _, _ => []

/-- Per-position absolute errors of a prediction vector. -/
noncomputable def absErrors : List ℝ → List ℝ → List ℝ
  | a :: as, b :: bs => |a - b| :: absErrors as bs
  | _, _ => []

/-- mean_squared_error over the true and predicted values. -/
noncomputable def mean_squared_error (y yp : List ℝ) : ℝ :=
  (squaredErrors y yp).sum / (y.length : ℝ)

/-- mean_absolute_error over the true and predicted values. -/
noncomputable def mean_absolute_error (y yp : List ℝ) : ℝ :=
  (absErrors y yp).sum / (y.length : ℝ)

/-- Arithmetic mean of a list of reals. -/
noncomputable def listMean (y : List ℝ) : ℝ := y.sum / (y.length : ℝ)

/-- The R-squared score computed by model.score. -/
noncomputable def r2_score (y yp : List ℝ) : ℝ :=
  1 - (squaredErrors y yp).sum / ((y.map (fun a => (a - listMean y) ^ 2)).sum)

/-- The per-model regression entry of results[name] built at src/app.py
lines 200-206: MSE and RMSE are two separate calls on the same test vectors,
RMSE going through np.sqrt. -/
structure RegressionEval where
  trainR2 : ℝ
  testR2 : ℝ
  mse : ℝ
  mae : ℝ
  rmse : ℝ

noncomputable def regressionResults (y_train y_test y_pred_train y_pred_test :
    List ℝ) : RegressionEval :=
  { trainR2 := r2_score y_train y_pred_train
    testR2 := r2_score y_test y_pred_test
    mse := mean_squared_error y_test y_pred_test
    mae := mean_absolute_error y_test y_pred_test
    rmse := Real.sqrt (mean_squared_error y_test y_pred_test) }

theorem squaredErrors_sum_nonneg (y : List ℝ) :
    ∀ yp : List ℝ, 0 ≤ (squaredErrors y yp).sum := by
  induction y with
  | nil => intro yp; simp [squaredErrors]
  | cons a as ih =>
    intro yp
    cases yp with
    | nil => simp [squaredErrors]
    | cons b bs =>
      simp only [squaredErrors, List.sum_cons]
      have h1 : (0 : ℝ) ≤ (a - b) ^ 2 := sq_nonneg _
      have h2 := ih bs
      linarith

theorem mean_squared_error_nonneg (y yp : List ℝ) :
    0 ≤ mean_squared_error y yp := by
  unfold mean_squared_error
  exact div_nonneg (squaredErrors_sum_nonneg y yp) (Nat.cast_nonneg _)

/-- Claim C5: in every regression entry the reported RMSE is exactly the
square root of the reported MSE of the same entry; equivalently it is the
nonnegative real whose square is that MSE. -/
theorem rmse_eq_sqrt_mse (y_train y_test y_pred_train y_pred_test : List ℝ) :
    ((regressionResults y_train y_test y_pred_train y_pred_test).rmse =
      Real.sqrt
        ((regressionResults y_train y_test y_pred_train y_pred_test).mse)) ∧
    ((regressionResults y_train y_test y_pred_train y_pred_test).rmse ^ 2 =
      (regressionResults y_train y_test y_pred_train y_pred_test).mse) ∧
    (0 ≤ (regressionResults y_train y_test y_pred_train y_pred_test).rmse) := by
  refine ⟨rfl, ?_, Real.sqrt_nonneg _⟩
  exact Real.sq_sqrt (mean_squared_error_nonneg y_test y_pred_test)

/-! ### Standardization (src/app.py lines 99-102) -/

/-- The fitted parameters of the StandardScaler: per-column mean and
variance. -/
structure ScalerState where
  colMean : List ℚ
  colVar : List ℚ
deriving DecidableEq

def columnMean (col : List ℚ) : ℚ := col.sum / (col.length : ℚ)

def columnVar (col : List ℚ) : ℚ :=
  ((col.map (fun x => (x - columnMean col) ^ 2)).sum) / (col.length : ℚ)

/-- Fitting the scaler computes per-column mean and variance of its input
matrix alone. -/
def fitScaler (X : List (List ℚ)) : ScalerState :=
  { colMean := X.transpose.map columnMean, colVar := X.transpose.map columnVar }

/-- The per-column divisor used by transform: sqrt of the variance, with a
zero variance replaced by one. -/
noncomputable def scaleFactor (v : ℚ) : ℝ :=
  if v = 0 then 1 else Real.sqrt (v : ℝ)

noncomputable def transformRow (s : ScalerState) (row : List ℚ) : List ℝ :=
  List.zipWith (fun (x : ℚ) (p : ℚ × ℚ) =>
      ((x : ℝ) - (p.1 : ℝ)) / scaleFactor p.2)
    row (s.colMean.zip s.colVar)

noncomputable def applyScaler (s : ScalerState) (X : List (List ℚ)) :
    List (List ℝ) :=
  X.map (transformRow s)

/-- transform in state-passing form: it reads the fitted parameters and
returns them unchanged together with the rescaled matrix. -/
noncomputable def transform (s : ScalerState) (X : List (List ℚ)) :
    ScalerState × List (List ℝ) :=
  (s, applyScaler s X)

/-- fit_transform: fit on the given matrix, then transform that matrix. -/
noncomputable def fit_transform (X : List (List ℚ)) :
    ScalerState × List (List ℝ) :=
  transform (fitScaler X) X

structure PreparedScaling where
  scaler : ScalerState
  trainScaled : List (List ℝ)
  testScaled : List (List ℝ)

/-- The preparation of src/app.py lines 100-102: X_train =
scaler.fit_transform(X_train), X_test = scaler.transform(X_test), with the
scaler state threaded through both calls. -/
noncomputable def prepareScaling (X_train X_test : List (List ℚ)) :
    PreparedScaling :=
  let ft := fit_transform X_train
  let tt := transform ft.1 X_test
  { scaler := tt.1, trainScaled := ft.2, testScaled := tt.2 }

/-- Claim C6: the scaler parameters are fitted exclusively on the train
partition (the final scaler state equals the fit on the train matrix and is
the same whatever test matrix is transformed), the identical fitted
parameters rescale both partitions, and transforming any matrix returns the
state it was given unchanged. -/
theorem scaler_no_test_leakage (X_train X_test : List (List ℚ)) :
    ((prepareScaling X_train X_test).scaler = fitScaler X_train) ∧
    (∀ X1 X2 : List (List ℚ),
      (prepareScaling X_train X1).scaler = (prepareScaling X_train X2).scaler) ∧
    ((prepareScaling X_train X_test).trainScaled =
      applyScaler (fitScaler X_train) X_train) ∧
    ((prepareScaling X_train X_test).testScaled =
      applyScaler (fitScaler X_train) X_test) ∧
    (∀ (s : ScalerState) (X : List (List ℚ)), (transform s X).1 = s) :=
  ⟨rfl, fun _ _ => rfl, rfl, rfl, fun _ _ => rfl⟩

/-! ### Train/test split (src/app.py lines 96-97) -/

/-- One step of the linear congruential pseudo-random stream that models the
seeded shuffling state of the library splitter. -/
def lcgNext (s : ℕ) : ℕ := (1103515245 * s + 12345) % 2 ^ 31

/-- Seeded shuffle: repeatedly draw the element at a pseudo-random index.
The first argument is structural fuel, instantiated with the list length. -/
def drawShuffle {α : Type} : ℕ → ℕ → List α → List α
  | 0, _, _ => []
  | _ + 1, _, [] => []
  | k + 1, s, x :: xs =>
    (x :: xs).get ⟨s % (x :: xs).length, Nat.mod_lt _ (by simp)⟩ ::
      drawShuffle k (lcgNext s) ((x :: xs).eraseIdx (s % (x :: xs).length))

def shuffle {α : Type} (seed : ℕ) (l : List α) : List α :=
  drawShuffle l.length seed l

/-- ceil(0.2 * n): the number of test rows of an 80/20 split of n rows. -/
def nTestRows (n : ℕ) : ℕ := (n + 4) / 5

/-- train_test_split with test_size 0.2 and the given random_state: a seeded
shuffle of the rows, the first ceil(0.2 n) going to the test partition and
the remainder to the train partition. -/
def train_test_split {α : Type} (rows : List α) (random_state : ℕ) :
    List α × List α :=
  let sh := shuffle random_state rows
  (sh.drop (nTestRows rows.length), sh.take (nTestRows rows.length))

/-- The call of src/app.py line 97 on one user-triggered run: the run index
plays no role because the seed is the fixed literal 42. -/
def appSplit (runIdx : ℕ) (rows : List (List ℚ × ℤ)) :
    List (List ℚ × ℤ) × List (List ℚ × ℤ) :=
  train_test_split rows 42

theorem drawShuffle_length {α : Type} (k : ℕ) :
    ∀ (s : ℕ) (l : List α), (drawShuffle k s l).length = min k l.length := by
  induction k with
  | zero => intro s l; simp [drawShuffle]
  | succ k ih =>
    intro s l
    cases l with
    | nil => simp [drawShuffle]
    | cons x xs =>
      have hidx : s % (x :: xs).length < (x :: xs).length :=
        Nat.mod_lt _ (by simp)
      have herase :
          ((x :: xs).eraseIdx (s % (x :: xs).length)).length + 1 =
            (x :: xs).length :=
        List.length_eraseIdx_add_one hidx
      simp only [drawShuffle, List.length_cons, ih]
      simp only [List.length_cons] at herase
      omega

theorem shuffle_length {α : Type} (seed : ℕ) (l : List α) :
    (shuffle seed l).length = l.length := by
  simp [shuffle, drawShuffle_length]

/-- Claim C8: the 80/20 split is deterministic for the fixed seed: any two
user-triggered runs on the same prepared rows produce identical train and
test partitions, and the partition sizes are the fixed 80/20 sizes in both
runs. -/
theorem split_deterministic (r1 r2 : ℕ) (rows : List (List ℚ × ℤ)) :
    (appSplit r1 rows = appSplit r2 rows) ∧
    ((appSplit r1 rows).2.length = nTestRows rows.length) ∧
    ((appSplit r1 rows).1.length = rows.length - nTestRows rows.length) := by
  have hlen : (shuffle 42 rows).length = rows.length := shuffle_length 42 rows
  have htest : nTestRows rows.length ≤ rows.length := by
    unfold nTestRows; omega
  refine ⟨rfl, ?_, ?_⟩
  · simp [appSplit, train_test_split, hlen]
    omega
  · simp [appSplit, train_test_split, hlen]

/-! ### The train-and-evaluate trigger (src/app.py lines 165-261) -/

/-- The error message prefix does not matter for the claims; the loop
propagates the first fit failure as the stage error. -/
def trainEvalLoop (fit : MLModel → Except String Unit) (score : MLModel → ℚ) :
    List MLModel → Except String (List (String × ℚ))
  | [] => Except.ok []
  | m :: ms =>
    match fit m with
    | Except.error e => Except.error e
    | Except.ok _ =>
      Except.map (fun rest => (m.name, score m) :: rest)
        (trainEvalLoop fit score ms)

/-- The prepared in-memory session state from the stages before the trigger:
split partitions and the fitted scaler (src/app.py lines 97-102, computed
outside the button handler and its try block). -/
structure SessionState where
  trainRows : List (List ℚ)
  testRows : List (List ℚ)
  yTrain : List ℤ
  yTest : List ℤ
  scaler : ScalerState
deriving DecidableEq

/-- What a successful trigger displays: the per-model results, the selected
best entry, and the LIME stage outcome for the best model. -/
structure RunOutput where
  results : List (String × ℚ)
  best : Option (String × ℚ)
  lime : LimeOutcome
deriving DecidableEq

/-- The whole button handler: evaluate the roster inside the try block; on a
fit failure the stage reports the error and nothing later in the chain (best
selection, explanations) runs; the prepared state is only read. -/
def runTrigger (st : SessionState) (featureNames : List String)
    (fit : MLModel → Except String Unit) (score : MLModel → ℚ)
    (mt : ModelType) (roster : List MLModel) :
    SessionState × Except String RunOutput :=
  (st,
    match trainEvalLoop fit score roster with
    | Except.error e => Except.error e
    | Except.ok res =>
      let best := selectBest res
      let bestM :=
        match best with
        | none => none
        | some p => roster.find? (fun m => m.name == p.1)
      Except.ok
        { results := res, best := best,
          lime := limeStep st.trainRows featureNames bestM mt })

/-- Claim C7: if every candidate before some roster position fits and the
candidate at that position fails to fit with error e, the trigger reports
exactly that error, the candidates after the failure are never evaluated
(the outcome does not depend on them), no best-model selection or
explanation output is produced, and the prepared session state is returned
unchanged, ready for a retry. -/
theorem fit_failure_halts (st : SessionState) (featureNames : List String)
    (fit : MLModel → Except String Unit) (score : MLModel → ℚ)
    (mt : ModelType) (pre : List MLModel) (bad : MLModel)
    (post : List MLModel) (e : String)
    (hpre : ∀ m ∈ pre, fit m = Except.ok ())
    (hbad : fit bad = Except.error e) :
    (trainEvalLoop fit score (pre ++ bad :: post) = Except.error e) ∧
    (∀ post2 : List MLModel,
      trainEvalLoop fit score (pre ++ bad :: post2) =
        trainEvalLoop fit score (pre ++ bad :: post)) ∧
    (runTrigger st featureNames fit score mt (pre ++ bad :: post) =
      (st, Except.error e)) := by
  have hloop : ∀ pre2 : List MLModel, (∀ m ∈ pre2, fit m = Except.ok ()) →
      ∀ post2 : List MLModel,
        trainEvalLoop fit score (pre2 ++ bad :: post2) = Except.error e := by
    intro pre2
    induction pre2 with
    | nil =>
      intro _ post2
      simp [trainEvalLoop, hbad]
    | cons m ms ih =>
      intro hp post2
      have hm : fit m = Except.ok () := hp m (List.mem_cons_self m ms)
      have hms : ∀ m2 ∈ ms, fit m2 = Except.ok () :=
        fun m2 h2 => hp m2 (List.mem_cons_of_mem m h2)
      simp [trainEvalLoop, hm, ih hms post2, Except.map]
  refine ⟨hloop pre hpre post, ?_, ?_⟩
  · intro post2
    rw [hloop pre hpre post2, hloop pre hpre post]
  · simp [runTrigger, hloop pre hpre post]

def incompatibleMsg : String := "incompatible data"

/-- A fit outcome on which the decision tree candidate fails. -/
def failingFit : MLModel → Except String Unit :=
  fun m =>
    if m.name = "DecisionTree" then Except.error incompatibleMsg
    else Except.ok ()

def zeroScore : MLModel → ℚ := fun _ => 0

def emptySession : SessionState :=
  { trainRows := [], testRows := [], yTrain := [], yTest := [],
    scaler := { colMean := [], colVar := [] } }

/-- Witness for claim C7: on a three-model roster whose second member fails
to fit, the trigger reports that error and leaves the session state
unchanged. -/
theorem fit_failure_halts_witness :
    (trainEvalLoop failingFit zeroScore
        ([⟨"RandomForest", true, true⟩] ++ ⟨"DecisionTree", true, true⟩ ::
          [⟨"SVC", true, true⟩]) = Except.error incompatibleMsg) ∧
    (∀ post2 : List MLModel,
      trainEvalLoop failingFit zeroScore
          ([⟨"RandomForest", true, true⟩] ++ ⟨"DecisionTree", true, true⟩ ::
            post2) =
        trainEvalLoop failingFit zeroScore
          ([⟨"RandomForest", true, true⟩] ++ ⟨"DecisionTree", true, true⟩ ::
            [⟨"SVC", true, true⟩])) ∧
    (runTrigger emptySession [] failingFit zeroScore ModelType.classification
        ([⟨"RandomForest", true, true⟩] ++ ⟨"DecisionTree", true, true⟩ ::
          [⟨"SVC", true, true⟩]) =
      (emptySession, Except.error incompatibleMsg)) :=
  fit_failure_halts emptySession [] failingFit zeroScore
    ModelType.classification [⟨"RandomForest", true, true⟩]
    ⟨"DecisionTree", true, true⟩ [⟨"SVC", true, true⟩] incompatibleMsg
    (by intro m hm; rw [List.mem_singleton] at hm; subst hm; rfl) (by rfl)
